import Mathlib

/-!
Shallow embedding of the session-coordinator server of the chess repository
(the final server iteration: time-controlled matchmaking, `makeMove` with
clock settling and lazy timeout, and disconnect cleanup).

Sockets are modelled by their string ids; the module-level mutable
collections `waiting` and `games` become fields of an explicit
`ServerState` threaded through the handlers; each handler returns the new
state together with the list of outbound socket emissions.  The chess.js
rules engine is external to the coordinator and is modelled by a `Rules`
structure parameterised over an opaque board type; `Math.random()` and
`makeRoomId()` become explicit parameters of `join`; `Date.now()` becomes
the explicit `now` argument (milliseconds, as in the source).
-/

namespace ChessServer

/-- The two sides; the server represents them by the strings
`'white'`/`'black'`. -/
inductive Color where
  | white
  | black
deriving DecidableEq, Repr

/-- `movingColor === 'white' ? 'black' : 'white'` — the opposite side. -/
def Color.other : Color → Color
  | .white => .black
  | .black => .white

/-- A normalized time control as stored in the waiting queue:
`{ time, increment }` in whole seconds. -/
structure TimeControl where
  time : Int
  increment : Int
deriving DecidableEq, Repr

/-- The raw `timeControl` payload of a `join` event.  A field holds
`none` when the client omitted it (JS `undefined`); `some 0` models an
explicit zero, which is falsy in JS. -/
structure TCRequest where
  time : Option Int
  increment : Option Int
deriving DecidableEq, Repr

/-- `const DEFAULT_TIME = 300;` -/
def DEFAULT_TIME : Int := 300

/-- `const DEFAULT_INCREMENT = 2;` -/
def DEFAULT_INCREMENT : Int := 2

/-- `timeControl?.time ? Math.max(30, Math.min(3600, parseInt(timeControl.time))) : DEFAULT_TIME`.
A missing or zero (falsy) value yields the default; a truthy value is
clamped into `[30, 3600]`. -/
def normTime : Option Int → Int
  | none => DEFAULT_TIME
  | some v => if v = 0 then DEFAULT_TIME else max 30 (min 3600 v)

/-- `timeControl?.increment ? Math.max(0, Math.min(60, parseInt(timeControl.increment))) : DEFAULT_INCREMENT`. -/
def normIncrement : Option Int → Int
  | none => DEFAULT_INCREMENT
  | some v => if v = 0 then DEFAULT_INCREMENT else max 0 (min 60 v)

/-- The per-game `timers` object:
`{ remaining: {white, black}, increment, lastMoveTs, runningColor }`.
`lastMoveTs` is in milliseconds, `remaining` in seconds. -/
structure Timers where
  remainingWhite : Int
  remainingBlack : Int
  increment : Int
  lastMoveTs : Int
  runningColor : Option Color
deriving DecidableEq, Repr

/-- `timers.remaining[c]` -/
def Timers.remaining (t : Timers) : Color → Int
  | .white => t.remainingWhite
  | .black => t.remainingBlack

/-- `timers.remaining[c] = v` -/
def Timers.setRemaining (t : Timers) : Color → Int → Timers
  | .white, v => { t with remainingWhite := v }
  | .black, v => { t with remainingBlack := v }

/-- The settling block at the top of the `makeMove` handler:

```
if (timers.runningColor) {
  const elapsed = Math.max(0, Math.floor((now - timers.lastMoveTs) / 1000));
  if (elapsed > 0) {
    timers.remaining[timers.runningColor] =
      Math.max(0, Math.floor(timers.remaining[timers.runningColor] - elapsed));
  }
}
```

Note that the source leaves `lastMoveTs` untouched here; it is updated
only when a legal move completes. -/
def settleTimers (t : Timers) (now : Int) : Timers :=
  match t.runningColor with
  | none => t
  | some c =>
    let elapsed := max 0 ((now - t.lastMoveTs).fdiv 1000)
    if elapsed > 0 then
      t.setRemaining c (max 0 (t.remaining c - elapsed))
    else t

/-- One element of `chess.moves({ verbose: true })`: the fields the
handler inspects (`from`, `to`, `promotion`).  `from` is a Lean keyword,
hence `fromSq`/`toSq`. -/
structure VerboseMove where
  fromSq : String
  toSq : String
  promotion : Option String
deriving DecidableEq, Repr

/-- The chess.js engine, an external pure rules adapter (spec §6): the
coordinator only calls the operations below.  `Board` is the opaque
engine state (a `new Chess()` instance's position). -/
structure Rules (Board : Type) where
  /-- `new Chess()` — the initial position. -/
  initial : Board
  /-- `chess.turn()` — returns the character `'w'` or `'b'`. -/
  turn : Board → Char
  /-- `chess.moves({ verbose: true })` — all legal moves. -/
  moves : Board → List VerboseMove
  /-- `chess.move({ from, to, promotion })` — the position after the move
  (the handler only calls it after its own legality pre-check succeeds). -/
  move : Board → String → String → Option String → Board
  /-- `chess.isGameOver()` -/
  isGameOver : Board → Bool
  /-- `chess.isCheckmate()` -/
  isCheckmate : Board → Bool
  /-- `chess.isDraw()` -/
  isDraw : Board → Bool

/-- One entry of the `games` map:
`{ chess, players: { white, black }, timers }`. -/
structure Game (Board : Type) where
  chess : Board
  white : String
  black : String
  timers : Timers
deriving DecidableEq, Repr

/-- One entry of the `waiting` array: `{ socketId, timeControl }`. -/
structure WaitEntry where
  socketId : String
  timeControl : TimeControl
deriving DecidableEq, Repr

/-- The module-level mutable state of the server:
`const waiting = []` and `const games = new Map()`.  The `Map` is
modelled as an association list in insertion order (which is also the
iteration order of a JS `Map`). -/
structure ServerState (Board : Type) where
  waiting : List WaitEntry
  games : List (String × Game Board)
deriving DecidableEq, Repr

/-- `games.get(roomId)` — first binding of the key (keys are unique in a
JS `Map`). -/
def gamesGet : List (String × Game Board) → String → Option (Game Board)
  | [], _ => none
  | q :: rest, k => if q.1 = k then some q.2 else gamesGet rest k

/-- `games.set(roomId, game)` — replace the binding if present, else
append. -/
def gamesSet (gs : List (String × Game Board)) (k : String) (v : Game Board) :
    List (String × Game Board) :=
  match gs with
  | [] => [(k, v)]
  | q :: rest => if q.1 = k then (k, v) :: rest else q :: gamesSet rest k v

/-- `games.delete(roomId)` — remove the binding of the key. -/
def gamesDelete (gs : List (String × Game Board)) (k : String) :
    List (String × Game Board) :=
  gs.eraseP fun q => decide (q.1 = k)

/-- Outbound socket emissions.  `socket.emit`/direct-socket emits carry
the destination socket id; `io.to(roomId).emit('gameUpdate', …)` is a
room broadcast reaching both players, carried here by the room id.  The
source uses a single `'gameUpdate'` event whose payload has different
fields on the timeout path and on the applied-move path; the two shapes
are the two `gameUpdate*` constructors below.  (Whether a destination
socket is still connected — the `if (sA) sA.emit(…)` guards — is not
modelled; emissions are recorded unconditionally.) -/
inductive Emit (Board : Type) where
  /-- `socket.emit('waiting')` -/
  | waitingMsg (dst : String)
  /-- `sX.emit('paired', { roomId, color, fen, timers, timeControl })` -/
  | paired (dst roomId : String) (color : Color) (fen : Board)
      (timers : Timers) (timeControl : TimeControl)
  /-- `io.to(roomId).emit('gameUpdate', { fen, isGameOver: true, timeout, winner, timers })` -/
  | gameUpdateTimeout (roomId : String) (fen : Board) (timeoutOf winner : Color)
      (timers : Timers)
  /-- `io.to(roomId).emit('gameUpdate', { fen, pgn, move, isGameOver, checkmate, draw, winner, timers })`
  (`pgn` and the echoed move object are represented by the move request). -/
  | gameUpdateMove (roomId : String) (fen : Board) (fromSq toSq : String)
      (promotion : Option String) (isGameOver checkmate draw : Bool)
      (winner : Option Color) (timers : Timers)
  /-- `socket.emit('illegalMove', { reason })` -/
  | illegalMove (dst : String) (reason : String)
  /-- `opp.emit('opponentDisconnected')` -/
  | opponentDisconnected (dst : String)
deriving DecidableEq, Repr

/-- Promotion normalization in `makeMove`:

```
if (promotion) {
  promotion = String(promotion).toLowerCase();
  if (!['q', 'r', 'b', 'n'].includes(promotion)) promotion = undefined;
}
``` -/
def promoNorm : Option String → Option String
  | none => none
  | some p =>
    let q := p.toLower
    if q = "q" ∨ q = "r" ∨ q = "b" ∨ q = "n" then some q else none

/-- The legality pre-check:

```
const legal = chess.moves({ verbose: true }).some(m =>
  m.from === from && m.to === to && (!m.promotion || m.promotion === promotion)
);
``` -/
def legalIn (R : Rules Board) (b : Board) (fromSq toSq : String)
    (promotion : Option String) : Bool :=
  (R.moves b).any fun m =>
    decide (m.fromSq = fromSq) && decide (m.toSq = toSq) &&
      (m.promotion.isNone || decide (m.promotion = promotion))

/-- `chess.turn() === 'w' ? 'white' : 'black'` -/
def colorOfTurn (c : Char) : Color := if c = 'w' then .white else .black

/-- The `makeMove` handler.  (The leading `typeof` payload validation is
not modelled: the arguments here are already strings.)

```
socket.on('makeMove', ({ roomId, from, to, promotion }) => { … });
```

JS mutates `game.timers` in place, so the settled timers persist in the
registry on every path that keeps the game registered — in particular on
the illegal-move path. -/
def makeMove (R : Rules Board) (st : ServerState Board)
    (requester roomId fromSq toSq : String) (promotion : Option String)
    (now : Int) : ServerState Board × List (Emit Board) :=
  match gamesGet st.games roomId with
  | none => (st, [.illegalMove requester "No such game"])
  | some g =>
    let timers := settleTimers g.timers now
    let movingColor := colorOfTurn (R.turn g.chess)
    if timers.remaining movingColor ≤ 0 then
      ({ st with games := gamesDelete st.games roomId },
       [.gameUpdateTimeout roomId g.chess movingColor movingColor.other timers])
    else
      let promo := promoNorm promotion
      if legalIn R g.chess fromSq toSq promo then
        let newBoard := R.move g.chess fromSq toSq promo
        let timers2 : Timers :=
          { timers.setRemaining movingColor
              (timers.remaining movingColor + timers.increment) with
            runningColor := some movingColor.other
            lastMoveTs := now }
        let isOver := R.isGameOver newBoard
        let winner : Option Color :=
          if R.isCheckmate newBoard then some (colorOfTurn (R.turn newBoard)).other
          else none
        let g' : Game Board :=
          { chess := newBoard, white := g.white, black := g.black, timers := timers2 }
        let games' :=
          if isOver then gamesDelete st.games roomId
          else gamesSet st.games roomId g'
        ({ st with games := games' },
         [.gameUpdateMove roomId newBoard fromSq toSq promo isOver
            (R.isCheckmate newBoard) (R.isDraw newBoard) winner timers2])
      else
        ({ st with games := gamesSet st.games roomId { g with timers := timers } },
         [.illegalMove requester "Illegal move"])

/-- The `join` handler.  `coin` is the `Math.random() < 0.5` draw
(`assignAWhite`), `newRoomId` the `makeRoomId()` result, `now` the
`Date.now()` at game creation.

The source removes any stale entry of the joining socket
(`waiting.findIndex` + `splice`), pushes the normalized request, scans
for the first entry with a different socket id and an exactly equal time
control, and on a match splices out both matched entries, creates the
game and emits `paired` to both (joiner first); otherwise it emits
`waiting`. -/
def join (R : Rules Board) (st : ServerState Board) (sid : String)
    (tc : Option TCRequest) (coin : Bool) (newRoomId : String) (now : Int) :
    ServerState Board × List (Emit Board) :=
  let initialTime := normTime (tc.bind TCRequest.time)
  let increment := normIncrement (tc.bind TCRequest.increment)
  let c : TimeControl := ⟨initialTime, increment⟩
  let w1 := st.waiting.eraseP fun w => decide (w.socketId = sid)
  let w2 := w1 ++ [⟨sid, c⟩]
  match w2.find? fun w => decide (¬ w.socketId = sid ∧ w.timeControl = c) with
  | some opponent =>
    let w3 := w2.eraseP fun w => decide (¬ w.socketId = sid ∧ w.timeControl = c)
    let w4 := w3.eraseP fun w => decide (w.socketId = sid)
    let chess := R.initial
    let timers : Timers :=
      { remainingWhite := initialTime, remainingBlack := initialTime,
        increment := increment, lastMoveTs := now, runningColor := some .white }
    let g : Game Board :=
      { chess := chess,
        white := if coin then sid else opponent.socketId,
        black := if coin then opponent.socketId else sid,
        timers := timers }
    ({ waiting := w4, games := gamesSet st.games newRoomId g },
     [.paired sid newRoomId (if coin then .white else .black) chess timers c,
      .paired opponent.socketId newRoomId (if coin then .black else .white) chess timers c])
  | none =>
    ({ waiting := w2, games := st.games }, [.waitingMsg sid])

/-- The scan in the `disconnect` handler:
`for (const [roomId, game] of games.entries()) { if (players.white === socket.id || players.black === socket.id) { … break; } }`
— the first registered game containing the socket. -/
def findGameWith : List (String × Game Board) → String → Option (String × Game Board)
  | [], _ => none
  | q :: rest, sid =>
    if q.2.white = sid ∨ q.2.black = sid then some q else findGameWith rest sid

/-- The `disconnect` handler: remove the socket from the waiting queue
if present; end the first registered game containing it, notifying the
opponent. -/
def disconnect (st : ServerState Board) (sid : String) :
    ServerState Board × List (Emit Board) :=
  let w := st.waiting.eraseP fun w => decide (w.socketId = sid)
  match findGameWith st.games sid with
  | none => ({ waiting := w, games := st.games }, [])
  | some q =>
    let opponentId := if q.2.white = sid then q.2.black else q.2.white
    ({ waiting := w, games := gamesDelete st.games q.1 },
     [.opponentDisconnected opponentId])

/-! ### A concrete rules instance for evaluating the coordinator

The coordinator is parametric in the rules engine (spec §6: the Rules
Adapter is external).  `toyRules` is a minimal concrete instance used to
evaluate the handlers on closed inputs: the board is a ply counter, the
side to move alternates, and exactly the move `a2 → a4` is legal in
every position. -/

def toyRules : Rules Nat where
  initial := 0
  turn b := if b % 2 = 0 then 'w' else 'b'
  moves _ := [⟨"a2", "a4", none⟩]
  move b _ _ _ := b + 1
  isGameOver _ := false
  isCheckmate _ := false
  isDraw _ := false

/-- A clock with 100 s for each side, white running since timestamp 0,
no increment. -/
def t100 : Timers := ⟨100, 100, 0, 0, some .white⟩

/-- A registered game between sockets "A" (white) and "B" (black) at the
initial toy position. -/
def gAB : Game Nat := ⟨0, "A", "B", t100⟩

/-- A server state with the single registered game `gAB` in room "r1"
and an empty waiting queue. -/
def st0 : ServerState Nat := ⟨[], [("r1", gAB)]⟩

/-- A session with white already out of time: base 300 s, increment 2 s,
white (the side to move) has `remaining = 0`. -/
def tExp : Timers := ⟨0, 300, 2, 0, some .white⟩

/-- The expired-clock game between "A" (white, to move, 0 s left) and
"B". -/
def gT : Game Nat := ⟨0, "A", "B", tExp⟩

/-- A server state holding only the expired-clock game in room "r1". -/
def stT : ServerState Nat := ⟨[], [("r1", gT)]⟩

/-! ### Helper lemmas -/

theorem gamesGet_gamesSet_self (gs : List (String × Game Board)) (k : String)
    (v : Game Board) : gamesGet (gamesSet gs k v) k = some v := by
  induction gs with
  | nil => simp [gamesSet, gamesGet]
  | cons q rest ih =>
    by_cases h : q.1 = k
    · simp [gamesSet, h, gamesGet]
    · simp [gamesSet, h, gamesGet, ih]

theorem gamesGet_gamesSet_ne (gs : List (String × Game Board)) {k k2 : String}
    (v : Game Board) (h : k2 ≠ k) : gamesGet (gamesSet gs k v) k2 = gamesGet gs k2 := by
  have hk : ¬ k = k2 := fun h2 => h h2.symm
  induction gs with
  | nil => simp [gamesSet, gamesGet, hk]
  | cons q rest ih =>
    by_cases hq : q.1 = k
    · subst hq
      simp only [gamesSet, if_pos rfl]
      simp only [gamesGet, if_neg hk]
    · simp only [gamesSet, if_neg hq, gamesGet, ih]

theorem gamesGet_eq_none (gs : List (String × Game Board)) (k : String)
    (h : ∀ q ∈ gs, q.1 ≠ k) : gamesGet gs k = none := by
  induction gs with
  | nil => simp [gamesGet]
  | cons q rest ih =>
    have h1 : q.1 ≠ k := h q (List.mem_cons_self q rest)
    simp only [gamesGet, if_neg h1]
    exact ih fun p hp => h p (List.mem_cons_of_mem q hp)

/-- Erasing the (unique, under key-nodup) binding of a key leaves a list
in which no entry carries that key. -/
theorem eraseP_value_not_mem {α β : Type _} [DecidableEq β] (f : α → β) (v : β)
    (l : List α) (h : (l.map f).Nodup) :
    ∀ b ∈ l.eraseP (fun x => decide (f x = v)), f b ≠ v := by
  induction l with
  | nil => simp
  | cons x xs ih =>
    rw [List.map_cons, List.nodup_cons] at h
    by_cases hx : f x = v
    · have heq : List.eraseP (fun y => decide (f y = v)) (x :: xs) = xs :=
        List.eraseP_cons_of_pos (by simpa using hx)
      rw [heq]
      intro b hb hbv
      exact h.1 (hx ▸ hbv ▸ List.mem_map_of_mem f hb)
    · have heq : List.eraseP (fun y => decide (f y = v)) (x :: xs) =
          x :: List.eraseP (fun y => decide (f y = v)) xs :=
        List.eraseP_cons_of_neg (by simpa using hx)
      rw [heq]
      intro b hb
      rcases List.mem_cons.mp hb with rfl | hb2
      · exact hx
      · exact ih h.2 b hb2

theorem gamesGet_gamesDelete_self (gs : List (String × Game Board)) (k : String)
    (h : (gs.map Prod.fst).Nodup) : gamesGet (gamesDelete gs k) k = none :=
  gamesGet_eq_none _ _ (eraseP_value_not_mem Prod.fst k gs h)

/-- After erasing the first match of `p` from a list whose `f`-values
are distinct, no remaining element shares its `f`-value with the first
match. -/
theorem eraseP_find?_value {α β : Type _} (f : α → β) (p : α → Bool) (a : α)
    (l : List α) (h : (l.map f).Nodup) (hf : l.find? p = some a) :
    ∀ b ∈ l.eraseP p, f b ≠ f a := by
  induction l with
  | nil => simp at hf
  | cons x xs ih =>
    rw [List.map_cons, List.nodup_cons] at h
    by_cases hx : p x
    · rw [List.find?_cons_of_pos _ hx] at hf
      injection hf with hfa
      subst hfa
      rw [List.eraseP_cons_of_pos hx]
      intro b hb hbv
      exact h.1 (hbv ▸ List.mem_map_of_mem f hb)
    · rw [List.find?_cons_of_neg _ hx] at hf
      rw [List.eraseP_cons_of_neg (by simp [hx])]
      intro b hb
      rcases List.mem_cons.mp hb with rfl | hb2
      · intro hbv
        exact h.1 (hbv ▸ List.mem_map_of_mem f (List.mem_of_find?_eq_some hf))
      · exact ih h.2 hf b hb2

/-- If at most one element satisfies `p`, any two satisfying members are
equal. -/
theorem countP_le_one_eq {α : Type _} (p : α → Bool) (l : List α)
    (h : l.countP p ≤ 1) {a b : α} (ha : a ∈ l) (hpa : p a) (hb : b ∈ l)
    (hpb : p b) : a = b := by
  induction l with
  | nil => simp at ha
  | cons x xs ih =>
    rw [List.countP_cons] at h
    rcases List.mem_cons.mp ha with rfl | ha2 <;> rcases List.mem_cons.mp hb with rfl | hb2
    · rfl
    · exfalso
      have h1 : 0 < xs.countP p := List.countP_pos_iff.mpr ⟨b, hb2, hpb⟩
      rw [if_pos hpa] at h
      omega
    · exfalso
      have h1 : 0 < xs.countP p := List.countP_pos_iff.mpr ⟨a, ha2, hpa⟩
      rw [if_pos hpb] at h
      omega
    · exact ih (le_trans (Nat.le_add_right _ _) h) ha2 hb2

/-- If at most one element satisfies `p`, nothing satisfies `p` after
`eraseP p`. -/
theorem eraseP_no_more {α : Type _} (p : α → Bool) (l : List α)
    (h : l.countP p ≤ 1) : ∀ b ∈ l.eraseP p, ¬ p b := by
  induction l with
  | nil => simp
  | cons x xs ih =>
    rw [List.countP_cons] at h
    by_cases hx : p x
    · rw [List.eraseP_cons_of_pos hx]
      intro b hb hpb
      have h1 : 0 < xs.countP p := List.countP_pos_iff.mpr ⟨b, hb, hpb⟩
      rw [if_pos hx] at h
      omega
    · rw [List.eraseP_cons_of_neg (by simpa using hx)]
      intro b hb
      rcases List.mem_cons.mp hb with rfl | hb2
      · exact hx
      · exact ih (le_trans (Nat.le_add_right _ _) h) b hb2

theorem findGameWith_eq_none (gs : List (String × Game Board)) (sid : String)
    (h : ∀ q ∈ gs, ¬ (q.2.white = sid ∨ q.2.black = sid)) :
    findGameWith gs sid = none := by
  induction gs with
  | nil => simp [findGameWith]
  | cons q rest ih =>
    simp only [findGameWith, if_neg (h q (List.mem_cons_self q rest))]
    exact ih fun p hp => h p (List.mem_cons_of_mem q hp)

theorem findGameWith_some {gs : List (String × Game Board)} {sid : String}
    {q : String × Game Board} (h : findGameWith gs sid = some q) :
    q ∈ gs ∧ (q.2.white = sid ∨ q.2.black = sid) := by
  induction gs with
  | nil => simp [findGameWith] at h
  | cons p rest ih =>
    by_cases hp : p.2.white = sid ∨ p.2.black = sid
    · rw [findGameWith, if_pos hp] at h
      injection h with h
      subst h
      exact ⟨List.mem_cons_self p rest, hp⟩
    · rw [findGameWith, if_neg hp] at h
      obtain ⟨hm, hq⟩ := ih h
      exact ⟨List.mem_cons_of_mem p hm, hq⟩

/-- The queue after a join's remove-stale-entry-and-push step keeps
socket ids pairwise distinct. -/
theorem queue_after_push_nodup (l : List WaitEntry) (sid : String) (c : TimeControl)
    (h : (l.map WaitEntry.socketId).Nodup) :
    (((l.eraseP fun w => decide (w.socketId = sid)) ++ [(⟨sid, c⟩ : WaitEntry)]).map
        WaitEntry.socketId).Nodup := by
  have hsub : ((l.eraseP fun w => decide (w.socketId = sid)).map WaitEntry.socketId).Sublist
      (l.map WaitEntry.socketId) := (List.eraseP_sublist l).map _
  rw [List.map_append, List.nodup_append]
  refine ⟨hsub.nodup h, by simp, ?_⟩
  intro a ha hb
  simp only [List.map_cons, List.map_nil, List.mem_singleton] at hb
  obtain ⟨w, hw, hwa⟩ := List.mem_map.mp ha
  exact eraseP_value_not_mem WaitEntry.socketId sid l h w hw (hwa.trans hb)

/-- Timers.setRemaining touches only the chosen side's remaining
seconds. -/
theorem setRemaining_fields (t : Timers) (c : Color) (v : Int) :
    (t.setRemaining c v).lastMoveTs = t.lastMoveTs ∧
    (t.setRemaining c v).runningColor = t.runningColor ∧
    (t.setRemaining c v).increment = t.increment ∧
    (t.setRemaining c v).remaining c = v := by
  cases c <;> simp [Timers.setRemaining, Timers.remaining]

/-- settleTimers never touches lastMoveTs, runningColor or the increment
(the source updates `lastMoveTs` only when a legal move completes). -/
theorem settleTimers_fields (t : Timers) (now : Int) :
    (settleTimers t now).lastMoveTs = t.lastMoveTs ∧
    (settleTimers t now).runningColor = t.runningColor ∧
    (settleTimers t now).increment = t.increment := by
  unfold settleTimers
  cases hr : t.runningColor with
  | none => exact ⟨rfl, hr, rfl⟩
  | some c =>
    dsimp only
    split
    · obtain ⟨h1, h2, h3, _⟩ := setRemaining_fields t c
        (max 0 (t.remaining c - max 0 ((now - t.lastMoveTs).fdiv 1000)))
      exact ⟨h1, h2.trans hr, h3⟩
    · exact ⟨rfl, hr, rfl⟩

/-- Formula for the settle step when a clock is running: the elapsed
whole seconds, clamped non-negative, are deducted, clamped at 0. -/
theorem settleTimers_remaining (t : Timers) (now : Int) (c : Color)
    (hr : t.runningColor = some c) (h0 : 0 ≤ t.remaining c) :
    (settleTimers t now).remaining c =
      max 0 (t.remaining c - max 0 ((now - t.lastMoveTs).fdiv 1000)) := by
  have hnn : (0 : Int) ≤ max 0 ((now - t.lastMoveTs).fdiv 1000) := le_max_left 0 _
  unfold settleTimers
  rw [hr]
  dsimp only
  split
  · exact (setRemaining_fields t c _).2.2.2
  · next he =>
      have he0 : max 0 ((now - t.lastMoveTs).fdiv 1000) = 0 :=
        le_antisymm (not_lt.mp he) hnn
      rw [he0, sub_zero, max_eq_right h0]

/-- Settling twice at the same `now` deducts the elapsed seconds twice,
because the settle step does not advance `lastMoveTs`. -/
theorem settleTimers_twice (t : Timers) (now : Int) (c : Color)
    (hr : t.runningColor = some c) (h0 : 0 ≤ t.remaining c) :
    (settleTimers (settleTimers t now) now).remaining c =
      max 0 (t.remaining c - 2 * max 0 ((now - t.lastMoveTs).fdiv 1000)) := by
  have h1 := settleTimers_remaining t now c hr h0
  have hfr := settleTimers_fields t now
  have hr2 : (settleTimers t now).runningColor = some c := hfr.2.1.trans hr
  have h02 : 0 ≤ (settleTimers t now).remaining c := by
    rw [h1]
    exact le_max_left 0 _
  have h2 := settleTimers_remaining (settleTimers t now) now c hr2 h02
  rw [h2, hfr.1, h1]
  have hee : (0 : Int) ≤ max 0 ((now - t.lastMoveTs).fdiv 1000) := le_max_left 0 _
  rcases le_total (t.remaining c - max 0 ((now - t.lastMoveTs).fdiv 1000)) 0 with hc | hc
  · rw [max_eq_left hc, max_eq_left (by linarith), max_eq_left (by linarith)]
  · rw [max_eq_right hc]
    congr 1
    ring

/-- C7 counterexample: with white running, 100 s remaining and the last
event at timestamp 0, settling at `now = 5000` ms leaves
`lastEventTimestamp` at 0 (the claim says it becomes `now`), and
settling a second time at the same `now` deducts the 5 elapsed seconds
again (95 → 90), so the settle step of the code is not idempotent at
equal `now`. -/
theorem settle_not_idempotent_counterexample :
    (settleTimers t100 5000).lastMoveTs ≠ 5000 ∧
    settleTimers (settleTimers t100 5000) 5000 ≠ settleTimers t100 5000 ∧
    (settleTimers t100 5000).remaining .white = 95 ∧
    (settleTimers (settleTimers t100 5000) 5000).remaining .white = 90 := by
  decide

/-- C7 (amended): the settle step subtracts
`max 0 ⌊(now − lastEventTimestamp)/1000⌋` from the running side's
remaining seconds, clamped at 0, but leaves `lastEventTimestamp` (and
the running side and the increment) unchanged; consequently settling
twice at the same `now` is not idempotent: starting from non-negative
remaining time it subtracts the elapsed seconds twice, yielding
`max 0 (r − 2·elapsed)` instead of `max 0 (r − elapsed)`. -/
theorem settle_subtracts_and_keeps_timestamp :
    (∀ (t : Timers) (now : Int),
      (settleTimers t now).lastMoveTs = t.lastMoveTs ∧
      (settleTimers t now).runningColor = t.runningColor ∧
      (settleTimers t now).increment = t.increment) ∧
    (∀ (t : Timers) (now : Int) (c : Color),
      t.runningColor = some c → 0 ≤ t.remaining c →
      (settleTimers t now).remaining c =
        max 0 (t.remaining c - max 0 ((now - t.lastMoveTs).fdiv 1000)) ∧
      (settleTimers (settleTimers t now) now).remaining c =
        max 0 (t.remaining c - 2 * max 0 ((now - t.lastMoveTs).fdiv 1000))) :=
  ⟨fun t now => settleTimers_fields t now,
   fun t now c hr h0 =>
    ⟨settleTimers_remaining t now c hr h0, settleTimers_twice t now c hr h0⟩⟩

/-- Witness for the amended C7 theorem at the concrete clock `t100` and
`now = 5000` ms. -/
theorem settle_subtracts_and_keeps_timestamp_witness :
    t100.runningColor = some Color.white ∧ (0 : Int) ≤ t100.remaining .white ∧
    (settleTimers t100 5000).remaining .white =
      max 0 (t100.remaining .white - max 0 ((5000 - t100.lastMoveTs).fdiv 1000)) ∧
    (settleTimers (settleTimers t100 5000) 5000).remaining .white =
      max 0 (t100.remaining .white - 2 * max 0 ((5000 - t100.lastMoveTs).fdiv 1000)) :=
  ⟨by decide, by decide,
   (settle_subtracts_and_keeps_timestamp.2 t100 5000 .white (by decide) (by decide)).1,
   (settle_subtracts_and_keeps_timestamp.2 t100 5000 .white (by decide) (by decide)).2⟩

/-- C1 counterexample: in `st0` the side to move is white (socket "A"),
yet the request from socket "B" (black) carrying a move that is legal
for white is applied: the board and the clock change and a `gameUpdate`
is broadcast to the room — the state is not left unchanged and the
non-offending side does not receive nothing. -/
theorem out_of_turn_request_mutates_state :
    gAB.black = "B" ∧
    colorOfTurn (toyRules.turn gAB.chess) = Color.white ∧
    legalIn toyRules gAB.chess "a2" "a4" (promoNorm none) = true ∧
    (makeMove toyRules st0 "B" "r1" "a2" "a4" none 1000).1 ≠ st0 ∧
    (makeMove toyRules st0 "B" "r1" "a2" "a4" none 1000).2 =
      [Emit.gameUpdateMove "r1" 1 "a2" "a4" none false false false none
        ⟨99, 100, 0, 1000, some Color.black⟩] := by
  decide

/-- C1 (amended): `makeMove` never resolves the requesting connection to
a side and performs no turn-ownership check: the post-state is identical
whichever connection sent the request, and the requester id is used only
as the destination of `illegalMove` rejections — so an out-of-turn
request carrying a move that is legal for the side to move mutates the
state and is broadcast exactly as if the mover had sent it. -/
theorem makeMove_ignores_requester_identity (Board : Type) (R : Rules Board)
    (st : ServerState Board) (a b roomId fromSq toSq : String)
    (promotion : Option String) (now : Int) :
    (makeMove R st a roomId fromSq toSq promotion now).1 =
      (makeMove R st b roomId fromSq toSq promotion now).1 ∧
    ∀ e ∈ (makeMove R st a roomId fromSq toSq promotion now).2,
      ∀ dst reason, e = Emit.illegalMove dst reason → dst = a := by
  unfold makeMove
  cases hg : gamesGet st.games roomId with
  | none =>
    refine ⟨rfl, ?_⟩
    intro e he dst reason hedst
    simp only [List.mem_singleton] at he
    subst he
    injection hedst with h1 h2
    exact h1.symm
  | some g =>
    dsimp only
    split
    · refine ⟨rfl, ?_⟩
      intro e he dst reason hedst
      simp only [List.mem_singleton] at he
      subst he
      simp at hedst
    · split
      · refine ⟨rfl, ?_⟩
        intro e he dst reason hedst
        simp only [List.mem_singleton] at he
        subst he
        simp at hedst
      · refine ⟨rfl, ?_⟩
        intro e he dst reason hedst
        simp only [List.mem_singleton] at he
        subst he
        injection hedst with h1 h2
        exact h1.symm

/-- Witness for the amended C1 theorem: concrete instantiation on `st0`
(the post-state equality and the rejection-targeting conclusion). -/
theorem makeMove_ignores_requester_identity_witness :
    (makeMove toyRules st0 "A" "r1" "x1" "x2" none 0).1 =
      (makeMove toyRules st0 "B" "r1" "x1" "x2" none 0).1 ∧
    ("A" : String) = "A" :=
  ⟨(makeMove_ignores_requester_identity Nat toyRules st0 "A" "B" "r1" "x1" "x2" none 0).1,
   (makeMove_ignores_requester_identity Nat toyRules st0 "A" "B" "r1" "x1" "x2" none 0).2
     (Emit.illegalMove "A" "Illegal move") (by decide) "A" "Illegal move" rfl⟩

/-- C2 counterexample: an illegal action submitted at `now = 5000` ms
against `st0` (white running since timestamp 0 with 100 s) is rejected
to the requester only, but the registered game's clock has the 5 elapsed
seconds deducted: `remaining` is not exactly as it was before the
call. -/
theorem illegal_action_mutates_remaining :
    (makeMove toyRules st0 "A" "r1" "x1" "x2" none 5000).2 =
      [Emit.illegalMove "A" "Illegal move"] ∧
    gamesGet st0.games "r1" =
      some ⟨0, "A", "B", ⟨100, 100, 0, 0, some Color.white⟩⟩ ∧
    gamesGet (makeMove toyRules st0 "A" "r1" "x1" "x2" none 5000).1.games "r1" =
      some ⟨0, "A", "B", ⟨95, 100, 0, 0, some Color.white⟩⟩ := by
  decide

/-- C2 (amended): when the rules checker rejects the action (and the
settled clock has not expired), only the requester is informed of the
rejection and the board, `lastEventTimestamp` and `runningSide` are
unchanged — but the registered game's clock is left in its settled
state: the elapsed time is deducted from the running side's remaining
seconds (clamped at 0), and that mutation persists. -/
theorem illegal_action_settles_clock (Board : Type) (R : Rules Board)
    (st : ServerState Board) (requester roomId fromSq toSq : String)
    (promotion : Option String) (now : Int) (g : Game Board)
    (hg : gamesGet st.games roomId = some g)
    (hnt : ¬ (settleTimers g.timers now).remaining (colorOfTurn (R.turn g.chess)) ≤ 0)
    (hil : legalIn R g.chess fromSq toSq (promoNorm promotion) = false) :
    makeMove R st requester roomId fromSq toSq promotion now =
      ({ st with games := (gamesSet st.games roomId
          { g with timers := settleTimers g.timers now }) },
       [Emit.illegalMove requester "Illegal move"]) ∧
    (settleTimers g.timers now).lastMoveTs = g.timers.lastMoveTs ∧
    (settleTimers g.timers now).runningColor = g.timers.runningColor := by
  refine ⟨?_, (settleTimers_fields g.timers now).1, (settleTimers_fields g.timers now).2.1⟩
  unfold makeMove
  rw [hg]
  dsimp only
  rw [if_neg hnt, if_neg (by simp [hil])]

/-- Witness for the amended C2 theorem on `st0` with the illegal request
`x1 → x2` at `now = 5000` ms. -/
theorem illegal_action_settles_clock_witness :
    gamesGet st0.games "r1" = some gAB ∧
    legalIn toyRules gAB.chess "x1" "x2" (promoNorm none) = false ∧
    makeMove toyRules st0 "A" "r1" "x1" "x2" none 5000 =
      ({ st0 with games := (gamesSet st0.games "r1"
          { gAB with timers := settleTimers gAB.timers 5000 }) },
       [Emit.illegalMove "A" "Illegal move"]) :=
  ⟨by decide, by decide,
   (illegal_action_settles_clock Nat toyRules st0 "A" "r1" "x1" "x2" none 5000 gAB
     (by decide) (by decide) (by decide)).1⟩

/-- C3: if the side to move has no remaining time once the clock is
settled at the moment of a `makeMove` call, the outcome is a timeout
whatever move was submitted: the winner is the other side, the final
settled clock is broadcast to the room, the session is removed from the
registry before the legality check can run (the submitted move's squares
are arbitrary), and any later action on the same room id is answered
with the no-such-game rejection. -/
theorem timeout_precedes_legality (Board : Type) (R : Rules Board)
    (st : ServerState Board) (roomId : String) (g : Game Board) (now : Int)
    (hk : (st.games.map Prod.fst).Nodup)
    (hg : gamesGet st.games roomId = some g)
    (hz : (settleTimers g.timers now).remaining (colorOfTurn (R.turn g.chess)) = 0) :
    (∀ requester fromSq toSq promotion,
      makeMove R st requester roomId fromSq toSq promotion now =
        ({ st with games := gamesDelete st.games roomId },
         [Emit.gameUpdateTimeout roomId g.chess (colorOfTurn (R.turn g.chess))
            (colorOfTurn (R.turn g.chess)).other (settleTimers g.timers now)])) ∧
    gamesGet (gamesDelete st.games roomId) roomId = none ∧
    (∀ r2 f2 t2 p2 (now2 : Int),
      makeMove R { st with games := gamesDelete st.games roomId } r2 roomId f2 t2 p2 now2 =
        ({ st with games := gamesDelete st.games roomId },
         [Emit.illegalMove r2 "No such game"])) := by
  have hnone : gamesGet (gamesDelete st.games roomId) roomId = none :=
    gamesGet_gamesDelete_self st.games roomId hk
  refine ⟨?_, hnone, ?_⟩
  · intro requester fromSq toSq promotion
    unfold makeMove
    rw [hg]
    dsimp only
    rw [if_pos (le_of_eq hz)]
  · intro r2 f2 t2 p2 now2
    unfold makeMove
    dsimp only
    rw [hnone]

/-- Witness for the C3 theorem: the spec's scenario with base 300 s,
increment 2 s, the side to move (white, socket "A") at `remaining = 0`;
the request from "B" yields the timeout broadcast and deregistration,
and the later action on the same room id is rejected with the
no-such-game reason. -/
theorem timeout_precedes_legality_witness :
    gamesGet stT.games "r1" = some gT ∧
    (settleTimers gT.timers 0).remaining (colorOfTurn (toyRules.turn gT.chess)) = 0 ∧
    makeMove toyRules stT "B" "r1" "a2" "a4" none 0 =
      ((⟨[], []⟩ : ServerState Nat),
       [Emit.gameUpdateTimeout "r1" 0 Color.white Color.black tExp]) ∧
    makeMove toyRules (⟨[], []⟩ : ServerState Nat) "A" "r1" "x" "y" none 99 =
      ((⟨[], []⟩ : ServerState Nat), [Emit.illegalMove "A" "No such game"]) :=
  ⟨by decide, by decide,
   (timeout_precedes_legality Nat toyRules stT "r1" gT 0 (by decide) (by decide)
     (by decide)).1 "B" "a2" "a4" none,
   (timeout_precedes_legality Nat toyRules stT "r1" gT 0 (by decide) (by decide)
     (by decide)).2.2 "A" "x" "y" none 99⟩

/-- C4 counterexample: participant "A" requests base 180 s with
increment 0 and waits; participant "B" then requests base 180 s with
increment 2 — two configurations that differ in the increment field —
and the matchmaker pairs them immediately (because the falsy increment 0
was replaced by the default 2 before queueing), instead of leaving both
Waiting. -/
theorem differing_configs_do_pair :
    (join toyRules (⟨[], []⟩ : ServerState Nat) "A"
        (some ⟨some 180, some 0⟩) true "r1" 0).2 = [Emit.waitingMsg "A"] ∧
    join toyRules
        (join toyRules (⟨[], []⟩ : ServerState Nat) "A"
          (some ⟨some 180, some 0⟩) true "r1" 0).1
        "B" (some ⟨some 180, some 2⟩) true "r2" 0 =
      ((⟨[], [("r2", ⟨0, "B", "A", ⟨180, 180, 2, 0, some .white⟩⟩)]⟩ : ServerState Nat),
       [Emit.paired "B" "r2" .white 0 ⟨180, 180, 2, 0, some .white⟩ ⟨180, 2⟩,
        Emit.paired "A" "r2" .black 0 ⟨180, 180, 2, 0, some .white⟩ ⟨180, 2⟩]) := by
  decide

/-- C4 (amended): matching is exact on the **normalized** configuration:
whenever every queued entry from another participant differs from the
joiner's normalized configuration, the join leaves the registry
untouched, appends the joiner's normalized entry and answers Waiting —
but a requested increment of 0 is falsy and is normalized to the default
2, so the claim's example pair `{base:180, increment:0}` and
`{base:180, increment:2}` normalize equal and are paired. -/
theorem mismatched_configs_stay_waiting (Board : Type) (R : Rules Board)
    (st : ServerState Board) (sid : String) (tc : Option TCRequest) (coin : Bool)
    (room : String) (now : Int) (nt ni : Int)
    (hnt : normTime (tc.bind TCRequest.time) = nt)
    (hni : normIncrement (tc.bind TCRequest.increment) = ni)
    (h : ∀ w ∈ st.waiting, w.socketId ≠ sid → w.timeControl ≠ ⟨nt, ni⟩) :
    join R st sid tc coin room now =
      (({ waiting := ((st.waiting.eraseP fun w => decide (w.socketId = sid)) ++ [(⟨sid, nt, ni⟩ : WaitEntry)]), games := st.games }),
       [Emit.waitingMsg sid]) := by
  subst hnt
  subst hni
  have hfind : (((st.waiting.eraseP fun w => decide (w.socketId = sid)) ++
      [(⟨sid, ⟨normTime (tc.bind TCRequest.time),
        normIncrement (tc.bind TCRequest.increment)⟩⟩ : WaitEntry)]).find?
      fun w => decide (¬ w.socketId = sid ∧
        w.timeControl = ⟨normTime (tc.bind TCRequest.time),
          normIncrement (tc.bind TCRequest.increment)⟩)) = none := by
    rw [List.find?_eq_none]
    intro x hx
    simp only [decide_eq_true_eq, not_and]
    rcases List.mem_append.mp hx with hx1 | hx2
    · intro hxs
      exact h x ((List.eraseP_sublist st.waiting).subset hx1) hxs
    · simp only [List.mem_singleton] at hx2
      subst hx2
      intro hxs
      exact absurd rfl hxs
  simp only [join]
  rw [hfind]

/-- Witness for the amended C4 theorem: "A" requests `{time:180,
increment:0}` against a queue holding only "X" with the different
normalized configuration `{100, 5}`, and is left Waiting with its
normalized entry `{180, 2}` appended. -/
theorem mismatched_configs_stay_waiting_witness :
    ((⟨[⟨"X", ⟨100, 5⟩⟩], []⟩ : ServerState Nat).waiting.length = 1) ∧
    join toyRules (⟨[⟨"X", ⟨100, 5⟩⟩], []⟩ : ServerState Nat) "A"
        (some ⟨some 180, some 0⟩) true "r1" 0 =
      ((⟨[⟨"X", ⟨100, 5⟩⟩, ⟨"A", ⟨180, 2⟩⟩], []⟩ : ServerState Nat),
       [Emit.waitingMsg "A"]) :=
  ⟨by decide,
   mismatched_configs_stay_waiting Nat toyRules (⟨[⟨"X", ⟨100, 5⟩⟩], []⟩ : ServerState Nat)
     "A" (some ⟨some 180, some 0⟩) true "r1" 0 180 2 (by decide) (by decide) (by decide)⟩

/-- A join against a queue holding exactly one compatible opponent pairs
the two: both are removed from the queue, the new game is registered
under the fresh room id with sides chosen by the random draw (`coin`),
and both sockets are sent `paired` (joiner first). -/
theorem join_pairs_singleton (Board : Type) (R : Rules Board)
    (games0 : List (String × Game Board)) (sid opp : String) (tc : Option TCRequest)
    (t i : Int) (coin : Bool) (room : String) (now : Int)
    (hne : ¬ opp = sid)
    (hnt : normTime (tc.bind TCRequest.time) = t)
    (hni : normIncrement (tc.bind TCRequest.increment) = i) :
    join R ⟨[⟨opp, ⟨t, i⟩⟩], games0⟩ sid tc coin room now =
      ((⟨[], gamesSet games0 room
          ⟨R.initial, if coin then sid else opp, if coin then opp else sid,
            ⟨t, t, i, now, some .white⟩⟩⟩ : ServerState Board),
       [Emit.paired sid room (if coin then .white else .black) R.initial
          ⟨t, t, i, now, some .white⟩ ⟨t, i⟩,
        Emit.paired opp room (if coin then .black else .white) R.initial
          ⟨t, t, i, now, some .white⟩ ⟨t, i⟩]) := by
  have e1 : ([(⟨opp, ⟨t, i⟩⟩ : WaitEntry)]).eraseP (fun w => decide (w.socketId = sid)) =
      [(⟨opp, ⟨t, i⟩⟩ : WaitEntry)] := by
    rw [List.eraseP_cons_of_neg (by simpa using hne), List.eraseP_nil]
  have e2 : ((⟨opp, ⟨t, i⟩⟩ : WaitEntry) :: [(⟨sid, ⟨t, i⟩⟩ : WaitEntry)]).find?
      (fun w => decide (¬ w.socketId = sid ∧ w.timeControl = ⟨t, i⟩)) =
      some ⟨opp, ⟨t, i⟩⟩ :=
    List.find?_cons_of_pos _ (by simp [hne])
  have e3 : ((⟨opp, ⟨t, i⟩⟩ : WaitEntry) :: [(⟨sid, ⟨t, i⟩⟩ : WaitEntry)]).eraseP
      (fun w => decide (¬ w.socketId = sid ∧ w.timeControl = ⟨t, i⟩)) =
      [(⟨sid, ⟨t, i⟩⟩ : WaitEntry)] :=
    List.eraseP_cons_of_pos (by simp [hne])
  have e4 : ([(⟨sid, ⟨t, i⟩⟩ : WaitEntry)]).eraseP (fun w => decide (w.socketId = sid)) =
      [] := List.eraseP_cons_of_pos (by simp)
  simp only [join, hnt, hni, e1, List.singleton_append, e2, e3, e4]

/-- C5: sides are assigned by the `Math.random() < 0.5` draw at session
creation, not by join order: with the same queue, the same joiner and
the same opponent, drawing `true` makes the joiner white and the
opponent black, and drawing `false` produces the swapped assignment —
both possible side assignments are reachable outcomes of the pairing. -/
theorem side_assignment_both_reachable (Board : Type) (R : Rules Board)
    (games0 : List (String × Game Board)) (sid opp room : String) (now : Int)
    (t i : Int) (hne : ¬ opp = sid) (ht1 : 30 ≤ t) (ht2 : t ≤ 3600)
    (hi1 : 1 ≤ i) (hi2 : i ≤ 60) :
    gamesGet (join R ⟨[⟨opp, ⟨t, i⟩⟩], games0⟩ sid
        (some ⟨some t, some i⟩) true room now).1.games room =
      some ⟨R.initial, sid, opp, ⟨t, t, i, now, some .white⟩⟩ ∧
    gamesGet (join R ⟨[⟨opp, ⟨t, i⟩⟩], games0⟩ sid
        (some ⟨some t, some i⟩) false room now).1.games room =
      some ⟨R.initial, opp, sid, ⟨t, t, i, now, some .white⟩⟩ := by
  have hnt : normTime ((some (⟨some t, some i⟩ : TCRequest)).bind TCRequest.time) = t := by
    show normTime (some t) = t
    simp only [normTime]
    rw [if_neg (show ¬ t = 0 by omega), min_eq_right ht2, max_eq_right ht1]
  have hni : normIncrement ((some (⟨some t, some i⟩ : TCRequest)).bind TCRequest.increment) = i := by
    show normIncrement (some i) = i
    simp only [normIncrement]
    rw [if_neg (show ¬ i = 0 by omega), min_eq_right hi2, max_eq_right (show (0:Int) ≤ i by omega)]
  rw [join_pairs_singleton Board R games0 sid opp _ t i true room now hne hnt hni,
    join_pairs_singleton Board R games0 sid opp _ t i false room now hne hnt hni]
  exact ⟨gamesGet_gamesSet_self games0 room _, gamesGet_gamesSet_self games0 room _⟩

/-- Witness for the C5 theorem: the queue holds "O" with `{300, 2}`;
"N" joins with the same configuration; drawing true gives "N" white,
drawing false gives "N" black. -/
theorem side_assignment_both_reachable_witness :
    (¬ ("O" : String) = "N") ∧
    gamesGet (join toyRules (⟨[⟨"O", ⟨300, 2⟩⟩], []⟩ : ServerState Nat) "N"
        (some ⟨some 300, some 2⟩) true "r7" 0).1.games "r7" =
      some ⟨0, "N", "O", ⟨300, 300, 2, 0, some .white⟩⟩ ∧
    gamesGet (join toyRules (⟨[⟨"O", ⟨300, 2⟩⟩], []⟩ : ServerState Nat) "N"
        (some ⟨some 300, some 2⟩) false "r7" 0).1.games "r7" =
      some ⟨0, "O", "N", ⟨300, 300, 2, 0, some .white⟩⟩ :=
  ⟨by decide,
   (side_assignment_both_reachable Nat toyRules [] "N" "O" "r7" 0 300 2
     (by decide) (by decide) (by decide) (by decide) (by decide)).1,
   (side_assignment_both_reachable Nat toyRules [] "N" "O" "r7" 0 300 2
     (by decide) (by decide) (by decide) (by decide) (by decide)).2⟩

/-- C6: a socket id appears at most once in the waiting queue — the
join handler first removes any stale entry of the joining socket before
pushing the new request, so queue-id distinctness is preserved by every
join — and a pairing only ever creates a game whose two player ids are
distinct (the queue scan requires a different socket id): any game
binding added by a join is either an old binding or has
`white ≠ black`. -/
theorem queue_unique_and_players_distinct :
    (∀ (Board : Type) (R : Rules Board) (st : ServerState Board) (sid : String)
       (tc : Option TCRequest) (coin : Bool) (room : String) (now : Int),
      (st.waiting.map WaitEntry.socketId).Nodup →
      ((join R st sid tc coin room now).1.waiting.map WaitEntry.socketId).Nodup) ∧
    (∀ (Board : Type) (st : ServerState Board) (sid : String),
      (st.waiting.map WaitEntry.socketId).Nodup →
      ((disconnect st sid).1.waiting.map WaitEntry.socketId).Nodup) ∧
    (∀ (Board : Type) (R : Rules Board) (st : ServerState Board)
       (requester roomId fromSq toSq : String) (promotion : Option String) (now : Int),
      (makeMove R st requester roomId fromSq toSq promotion now).1.waiting = st.waiting) ∧
    (∀ (Board : Type) (R : Rules Board) (st : ServerState Board) (sid : String)
       (tc : Option TCRequest) (coin : Bool) (room : String) (now : Int)
       (room2 : String) (g : Game Board),
      gamesGet (join R st sid tc coin room now).1.games room2 = some g →
      gamesGet st.games room2 = some g ∨ g.white ≠ g.black) := by
  refine ⟨?_, ?_, ?_, ?_⟩
  · intro Board R st sid tc coin room now hnd
    have hw2 := queue_after_push_nodup st.waiting sid
      ⟨normTime (tc.bind TCRequest.time), normIncrement (tc.bind TCRequest.increment)⟩ hnd
    simp only [join]
    split
    · dsimp only
      exact List.Nodup.sublist
        (((List.eraseP_sublist _).trans (List.eraseP_sublist _)).map WaitEntry.socketId) hw2
    · dsimp only
      exact hw2
  · intro Board st sid hnd
    unfold disconnect
    split
    · dsimp only
      exact List.Nodup.sublist ((List.eraseP_sublist _).map WaitEntry.socketId) hnd
    · dsimp only
      exact List.Nodup.sublist ((List.eraseP_sublist _).map WaitEntry.socketId) hnd
  · intro Board R st requester roomId fromSq toSq promotion now
    unfold makeMove
    cases hg : gamesGet st.games roomId
    · rfl
    · dsimp only
      split
      · rfl
      · split <;> rfl
  · intro Board R st sid tc coin room now room2 g hget
    simp only [join] at hget
    split at hget
    · next opponent heq =>
      dsimp only at hget
      by_cases hr : room2 = room
      · subst hr
        rw [gamesGet_gamesSet_self] at hget
        injection hget with hget
        right
        have hp := List.find?_some heq
        simp only [decide_eq_true_eq] at hp
        subst hget
        dsimp only
        cases coin
        · intro hh
          simp only [Bool.false_eq_true, if_false] at hh
          exact hp.1 hh
        · intro hh
          simp only [if_true] at hh
          exact hp.1 hh.symm
      · rw [gamesGet_gamesSet_ne st.games _ hr] at hget
        exact Or.inl hget
    · exact Or.inl hget

/-- Witness for the C6 theorem: "A" with `{300, 2}` is queued; "B" joins
with the same configuration; the queue stays duplicate-free and the new
game's two player ids are distinct. -/
theorem queue_unique_and_players_distinct_witness :
    (((⟨[⟨"A", ⟨300, 2⟩⟩], []⟩ : ServerState Nat).waiting.map WaitEntry.socketId).Nodup) ∧
    (((join toyRules (⟨[⟨"A", ⟨300, 2⟩⟩], []⟩ : ServerState Nat) "B"
        (some ⟨some 300, some 2⟩) true "r9" 0).1.waiting.map WaitEntry.socketId).Nodup) ∧
    (((disconnect st0 "B").1.waiting.map WaitEntry.socketId).Nodup) ∧
    ((makeMove toyRules st0 "A" "r1" "a2" "a4" none 5).1.waiting = st0.waiting) ∧
    (gamesGet (⟨[⟨"A", ⟨300, 2⟩⟩], []⟩ : ServerState Nat).games "r9" =
        some ⟨0, "B", "A", ⟨300, 300, 2, 0, some .white⟩⟩ ∨
      (⟨0, "B", "A", ⟨300, 300, 2, 0, some .white⟩⟩ : Game Nat).white ≠
        (⟨0, "B", "A", ⟨300, 300, 2, 0, some .white⟩⟩ : Game Nat).black) :=
  ⟨by decide,
   queue_unique_and_players_distinct.1 Nat toyRules (⟨[⟨"A", ⟨300, 2⟩⟩], []⟩ : ServerState Nat)
     "B" (some ⟨some 300, some 2⟩) true "r9" 0 (by decide),
   queue_unique_and_players_distinct.2.1 Nat st0 "B" (by decide),
   queue_unique_and_players_distinct.2.2.1 Nat toyRules st0 "A" "r1" "a2" "a4" none 5,
   queue_unique_and_players_distinct.2.2.2 Nat toyRules (⟨[⟨"A", ⟨300, 2⟩⟩], []⟩ : ServerState Nat)
     "B" (some ⟨some 300, some 2⟩) true "r9" 0 "r9"
     ⟨0, "B", "A", ⟨300, 300, 2, 0, some .white⟩⟩ (by decide)⟩

/-- C8 counterexample: with the game `("r1", gAB)` (containing "A")
still registered, "A" joins the queue again and is paired with "C": the
resulting registry holds two sessions that both contain the live
participant "A". -/
theorem participant_in_two_sessions :
    (join toyRules st0 "A" (some ⟨some 100, some 1⟩) true "rX" 0).2 =
      [Emit.waitingMsg "A"] ∧
    (join toyRules (join toyRules st0 "A" (some ⟨some 100, some 1⟩) true "rX" 0).1
        "C" (some ⟨some 100, some 1⟩) true "r2" 0).1.games =
      [("r1", gAB), ("r2", ⟨0, "C", "A", ⟨100, 100, 1, 0, some .white⟩⟩)] ∧
    gAB.white = "A" ∧
    (⟨0, "C", "A", ⟨100, 100, 1, 0, some .white⟩⟩ : Game Nat).black = "A" := by
  decide

/-- C8 (amended): within a single pairing the invariant step does hold —
the two participants placed into the new session are removed from the
waiting queue at that instant (under queue-id distinctness, the
resulting queue contains neither the joiner nor the matched opponent) —
but `join` never consults the session registry, so a participant already
contained in a registered session can join again and be placed into a
second, concurrently registered session. -/
theorem pairing_removes_both_from_queue (Board : Type) (R : Rules Board)
    (st : ServerState Board) (sid : String) (tc : Option TCRequest) (coin : Bool)
    (room : String) (now : Int) (opponent : WaitEntry)
    (hnd : (st.waiting.map WaitEntry.socketId).Nodup)
    (hf : (((st.waiting.eraseP fun w => decide (w.socketId = sid)) ++
        [(⟨sid, ⟨normTime (tc.bind TCRequest.time),
          normIncrement (tc.bind TCRequest.increment)⟩⟩ : WaitEntry)]).find?
        fun w => decide (¬ w.socketId = sid ∧
          w.timeControl = ⟨normTime (tc.bind TCRequest.time),
            normIncrement (tc.bind TCRequest.increment)⟩)) = some opponent) :
    ∀ w ∈ (join R st sid tc coin room now).1.waiting,
      w.socketId ≠ sid ∧ w.socketId ≠ opponent.socketId := by
  have hw2 := queue_after_push_nodup st.waiting sid
    ⟨normTime (tc.bind TCRequest.time), normIncrement (tc.bind TCRequest.increment)⟩ hnd
  simp only [join]
  rw [hf]
  dsimp only
  intro w hw
  refine ⟨eraseP_value_not_mem WaitEntry.socketId sid _
    (List.Nodup.sublist ((List.eraseP_sublist _).map WaitEntry.socketId) hw2) w hw, ?_⟩
  exact eraseP_find?_value WaitEntry.socketId _ opponent _ hw2 hf w
    ((List.eraseP_sublist _).subset hw)

/-- Witness for the amended C8 theorem: "N" joins against the queue
["O" `{300,2}`, "P" `{7,7}`] and is paired with "O"; the surviving queue
entry "P" is neither the joiner nor the matched opponent. -/
theorem pairing_removes_both_from_queue_witness :
    ((⟨"P", ⟨7, 7⟩⟩ : WaitEntry).socketId ≠ "N" ∧
     (⟨"P", ⟨7, 7⟩⟩ : WaitEntry).socketId ≠ ("O" : String)) :=
  pairing_removes_both_from_queue Nat toyRules
    (⟨[⟨"O", ⟨300, 2⟩⟩, ⟨"P", ⟨7, 7⟩⟩], []⟩ : ServerState Nat) "N"
    (some ⟨some 300, some 2⟩) true "rQ" 0 ⟨"O", ⟨300, 2⟩⟩ (by decide) (by decide)
    ⟨"P", ⟨7, 7⟩⟩ (by decide)

/-- disconnect is a no-op — state unchanged, nothing emitted — when the
socket is neither in the waiting queue nor in any registered game. -/
theorem disconnect_eq_noop (Board : Type) (st : ServerState Board) (sid : String)
    (hq : ∀ w ∈ st.waiting, w.socketId ≠ sid)
    (hg : findGameWith st.games sid = none) : disconnect st sid = (st, []) := by
  unfold disconnect
  rw [hg]
  dsimp only
  rw [List.eraseP_of_forall_not (by intro w hw; simpa using hq w hw)]

/-- C9: disconnect handling is idempotent.  Processing a disconnect for
a participant who is no longer queued and whose session is already
deregistered changes nothing and notifies nobody; and under the intended
at-most-one-session-per-participant state (and unique queue entries and
registry keys), processing a second disconnect for the same participant
after a first one is a no-op: no second notification, no error, registry
and queue unchanged. -/
theorem disconnect_idempotent :
    (∀ (Board : Type) (st : ServerState Board) (sid : String),
      (∀ w ∈ st.waiting, w.socketId ≠ sid) →
      findGameWith st.games sid = none →
      disconnect st sid = (st, [])) ∧
    (∀ (Board : Type) (st : ServerState Board) (sid : String),
      st.waiting.countP (fun w => decide (w.socketId = sid)) ≤ 1 →
      st.games.countP (fun q => decide (q.2.white = sid ∨ q.2.black = sid)) ≤ 1 →
      (st.games.map Prod.fst).Nodup →
      disconnect (disconnect st sid).1 sid = ((disconnect st sid).1, [])) := by
  refine ⟨fun Board st sid hq hg => disconnect_eq_noop Board st sid hq hg, ?_⟩
  intro Board st sid hq hg hk
  cases hf : findGameWith st.games sid with
  | none =>
    have hd1 : disconnect st sid =
        ((⟨st.waiting.eraseP fun w => decide (w.socketId = sid), st.games⟩ : ServerState Board), []) := by
      unfold disconnect
      rw [hf]
    rw [hd1]
    dsimp only
    apply disconnect_eq_noop
    · intro w hw
      simpa using eraseP_no_more _ st.waiting hq w hw
    · exact hf
  | some q =>
    have hd1 : disconnect st sid =
        ((⟨st.waiting.eraseP fun w => decide (w.socketId = sid), gamesDelete st.games q.1⟩ : ServerState Board),
         [Emit.opponentDisconnected (if q.2.white = sid then q.2.black else q.2.white)]) := by
      unfold disconnect
      rw [hf]
    rw [hd1]
    dsimp only
    apply disconnect_eq_noop
    · intro w hw
      simpa using eraseP_no_more _ st.waiting hq w hw
    · apply findGameWith_eq_none
      intro p2 hp2 hcont
      have hmem : p2 ∈ st.games := (List.eraseP_sublist _).subset hp2
      obtain ⟨hqmem, hqprop⟩ := findGameWith_some hf
      have heq2 : p2 = q :=
        countP_le_one_eq _ st.games hg hmem (decide_eq_true hcont) hqmem
          (decide_eq_true hqprop)
      exact eraseP_value_not_mem Prod.fst q.1 st.games hk p2 hp2 (congrArg Prod.fst heq2)

/-- Witness for the C9 theorem: a disconnect for an unknown socket on
the empty state is a no-op, and a second disconnect of "B" after the
first one (which ended the game in `st0`) is a no-op. -/
theorem disconnect_idempotent_witness :
    disconnect (⟨[], []⟩ : ServerState Nat) "Z" = ((⟨[], []⟩ : ServerState Nat), []) ∧
    disconnect (disconnect st0 "B").1 "B" = ((disconnect st0 "B").1, []) :=
  ⟨disconnect_idempotent.1 Nat ⟨[], []⟩ "Z" (by simp) rfl,
   disconnect_idempotent.2 Nat st0 "B" (by decide) (by decide) (by decide)⟩

/-- C10: on every join the requested time control is normalized before
queueing and matching: a missing or zero (falsy) base time or increment
is replaced by the defaults 300 and 2 respectively, a truthy base time
is clamped into [30, 3600] and a truthy increment into [0, 60]; in
particular a participant who explicitly requests increment 0 is queued
and matched as if they had requested increment 2 — joining against a
queued `{180, 2}` opponent with the request `{time:180, increment:0}`
pairs them. -/
theorem join_normalizes_time_control :
    (normTime none = 300 ∧ normIncrement none = 2 ∧
      normTime (some 0) = 300 ∧ normIncrement (some 0) = 2) ∧
    (∀ v : Int, v ≠ 0 →
      normTime (some v) = max 30 (min 3600 v) ∧
      normIncrement (some v) = max 0 (min 60 v)) ∧
    (∀ (Board : Type) (R : Rules Board) (games0 : List (String × Game Board))
       (sid opp room : String) (coin : Bool) (now : Int),
      ¬ opp = sid →
      gamesGet (join R ⟨[⟨opp, ⟨180, 2⟩⟩], games0⟩ sid
          (some ⟨some 180, some 0⟩) coin room now).1.games room =
        some ⟨R.initial, if coin then sid else opp, if coin then opp else sid,
          ⟨180, 180, 2, now, some .white⟩⟩) := by
  refine ⟨by decide, ?_, ?_⟩
  · intro v hv
    constructor
    · simp only [normTime]
      rw [if_neg hv]
    · simp only [normIncrement]
      rw [if_neg hv]
  · intro Board R games0 sid opp room coin now hne
    rw [join_pairs_singleton Board R games0 sid opp _ 180 2 coin room now hne
      (by decide) (by decide)]
    exact gamesGet_gamesSet_self games0 room _

/-- Witness for the C10 theorem: a truthy negative increment is clamped
(to 0), and the concrete `{180, 0}` joiner "N" is paired with the queued
`{180, 2}` opponent "O". -/
theorem join_normalizes_time_control_witness :
    ((-5 : Int) ≠ 0 ∧ normTime (some (-5)) = max 30 (min 3600 (-5)) ∧
      normIncrement (some (-5)) = max 0 (min 60 (-5))) ∧
    (¬ ("O" : String) = "N") ∧
    gamesGet (join toyRules (⟨[⟨"O", ⟨180, 2⟩⟩], []⟩ : ServerState Nat) "N"
        (some ⟨some 180, some 0⟩) true "rz" 0).1.games "rz" =
      some ⟨0, "N", "O", ⟨180, 180, 2, 0, some .white⟩⟩ :=
  ⟨⟨by decide, (join_normalizes_time_control.2.1 (-5) (by decide)).1,
    (join_normalizes_time_control.2.1 (-5) (by decide)).2⟩,
   by decide,
   join_normalizes_time_control.2.2 Nat toyRules [] "N" "O" "rz" true 0 (by decide)⟩

end ChessServer
